import Mathlib

/-!
A shallow embedding of `src/src/TemplateEngine.ts` (the `@currentjs/templating`
server-side HTML template engine) and proofs about it.

Modelling conventions:
* JS values flowing through templates are modelled by `Value` (null and
  undefined are collapsed into `Value.vNull`, since every code path of the
  source treats them alike: `value === null || value === undefined`,
  `Boolean(...)`, `Array.isArray(...)`, and the `data && typeof data === 'object'`
  guard).
* JS objects used as render data are modelled as association lists
  (`Obj := List (String × Value)`) in which the FIRST matching key wins;
  object-literal spreads (`{...a, ...b}` with `b`'s keys overwriting `a`'s)
  are therefore modelled by putting the overriding entries first.
* The ambient JS global object (`globalThis`), which the scope proxy of
  `createEvalScope` (src lines 125–138) falls back to, is modelled as an
  explicit `Obj` parameter `globals` carried by the engine.
* Markup is modelled structurally as `Node` trees (text, self-closing
  elements, open/close elements with children), following the spec's stated
  intent (§9) that directive matching be by tag structure; the per-match
  behaviour of each pass (`applyLoops`, `applyConditionals`, `applyIncludes`)
  is translated from the corresponding `String.replace` callback of the
  source, and the interpolation pass (`interpolate`) runs on the serialized
  string exactly as in the source, with the two regex substitution passes
  modelled as left-to-right scanners over the character list.
* One deliberate, documented divergence: the source splices every rendered
  body or include back into the html STRING, which the same pass's
  fixed-point re-run (src lines 186–189, 211–214, 249–252) and the enclosing
  render's later structural passes re-scan — so directive or element markup
  that interpolated values introduce into rendered text is re-expanded by
  the source, while the structural model wraps rendered text in inert text
  nodes that the structural passes do not re-parse.  Interpolation-level
  re-scanning IS modelled faithfully: every render level runs `interpolate`
  over the full serialized output of its structural passes, and the escaped
  sub-pass runs over the raw sub-pass's output.  Model and source therefore
  coincide on renders whose substituted values introduce no directive or
  element markup into rendered text, and every theorem below evaluates the
  model only on such inputs.  Likewise the source regexes require a nonempty
  directive attribute value, so templates with empty `x-for` / `x-if` values
  are outside the model.
* The `depth` counter of `renderContent` (guard: `if (depth > 50) throw`)
  is modelled by the equivalent structural fuel `51 - depth`: the source
  errors exactly when `depth > 50`, i.e. when the fuel `51 - depth` is zero,
  and every recursive re-render passes `depth + 1`, i.e. fuel minus one.
* The host-language expression evaluator (`new Function` + `with (scope)`,
  executed by the JS engine, which is outside this repository) is modelled
  for the restricted fragment the claims exercise: the keyword literals
  `true` / `false` / `null`, identifier paths `a.b.c` resolved through the
  proxy-scope lookup of `createEvalScope`, runtime type errors on property
  access through null/undefined, and everything else as a syntax error.
-/

namespace Templating

/-- A loosely typed JS value as it flows through the template engine.
`vNull` stands for both `null` and `undefined` (see module comment). -/
inductive Value where
  | vNull
  | vBool (b : Bool)
  | vNum (n : Int)
  | vStr (s : String)
  | vArr (items : List Value)
  | vObj (fields : List (String × Value))

/-- A JS object modelled as an association list; the first matching key wins. -/
abbrev Obj := List (String × Value)

/-- Own-property lookup on a modelled JS object. -/
def lookupField : Obj → String → Option Value
  | [], _ => none
  | (k, v) :: rest, key => if k = key then some v else lookupField rest key

mutual
/-- JS `String(value)` for the values of the model. -/
def toStringJS : Value → String
  | .vNull => "null"
  | .vBool b => if b then "true" else "false"
  | .vNum n => toString n
  | .vStr s => s
  | .vArr items => arrayJoin items
  | .vObj _ => "[object Object]"

/-- JS `Array.prototype.toString`: elements joined by commas, null/undefined
elements contributing the empty string. -/
def arrayJoin : List Value → String
  | [] => ""
  | v :: rest =>
    (match v with
     | .vNull => ""
     | w => toStringJS w) ++
    (match rest with
     | [] => ""
     | _ :: _ => "," ++ arrayJoin rest)
end

/-- JS truthiness (`Boolean(value)`): null/undefined, `0`, the empty string
and `false` are falsy; every other value is truthy. -/
def truthy : Value → Bool
  | .vNull => false
  | .vBool b => b
  | .vNum n => n != 0
  | .vStr s => s != ""
  | _ => true

/-! ### Characters and strings -/

/-- The left curly brace character. -/
def lbrace : Char := Char.ofNat 123

/-- The right curly brace character. -/
def rbrace : Char := Char.ofNat 125

/-- The byte-order mark U+FEFF, stripped by `renderContent`. -/
def bomChar : Char := Char.ofNat 0xFEFF

/-- The double quote character. -/
def dquoteChar : Char := Char.ofNat 34

/-- The single quote character. -/
def squoteChar : Char := Char.ofNat 39

/-- Whitespace as used by `trim` and the `\s` of the interpolation regexes
(restricted to the ASCII whitespace that can appear in the modelled
templates). -/
def isSpaceChar (c : Char) : Bool :=
  c == ' ' || c == Char.ofNat 9 || c == Char.ofNat 10 || c == Char.ofNat 13

/-- `String.prototype.trim` on a character list. -/
def trimChars (cs : List Char) : List Char :=
  ((cs.dropWhile isSpaceChar).reverse.dropWhile isSpaceChar).reverse

/-- `String.prototype.trim`. -/
def trimString (s : String) : String := String.mk (trimChars s.data)

/-- `String.prototype.toLowerCase` (ASCII, which covers template names in the
model). -/
def lowerString (s : String) : String := String.mk (s.data.map Char.toLower)

/-- `normalizeName` (src lines 47–49): trim, and lowercase unless names are
configured case-sensitive. -/
def normalizeName (caseInsensitive : Bool) (name : String) : String :=
  if caseInsensitive then lowerString (trimString name) else trimString name

/-! ### The expression evaluator -/

/-- First character of a JS identifier. -/
def isIdentStart (c : Char) : Bool := c.isAlpha || c == '_' || c == '$'

/-- Later characters of a JS identifier. -/
def isIdentOther (c : Char) : Bool := isIdentStart c || c.isDigit

/-- Identifier shape over a character list. -/
def identShape : List Char → Bool
  | [] => false
  | c :: rest => isIdentStart c && rest.all isIdentOther

/-- `true`/`false`/`null` are keyword literals, not identifiers. -/
def isIdentifier (s : String) : Bool :=
  identShape s.data && !(s == "true" || s == "false" || s == "null")

/-- Split a character list at a separator character. -/
def splitOnChar (sep : Char) : List Char → List (List Char)
  | [] => [[]]
  | c :: cs =>
    match splitOnChar sep cs with
    | [] => [[]]
    | piece :: more => if c == sep then [] :: piece :: more else (c :: piece) :: more

/-- The scope proxy built by `createEvalScope` (src lines 125–138): `get`
resolves a name from the target data first, then falls back to `globalThis`,
and otherwise yields undefined. -/
def createEvalScope (data globals : Obj) (p : String) : Value :=
  match lookupField data p with
  | some v => v
  | none =>
    match lookupField globals p with
    | some v => v
    | none => .vNull

/-- JS property access `v[k]` for the modelled values; accessing a property
of null/undefined is a runtime `TypeError`. -/
def getProp (v : Value) (k : String) : Except String Value :=
  match v with
  | .vNull =>
    .error ("TypeError: Cannot read properties of undefined (reading '" ++ k ++ "')")
  | .vObj fields =>
    .ok (match lookupField fields k with | some w => w | none => .vNull)
  | .vArr items =>
    if k = "length" then .ok (.vNum items.length) else .ok .vNull
  | .vStr s =>
    if k = "length" then .ok (.vNum s.length) else .ok .vNull
  | _ => .ok .vNull

/-- Fold property accesses along a dotted path. -/
def getPath : Value → List (List Char) → Except String Value
  | v, [] => .ok v
  | v, k :: ks =>
    match getProp v (String.mk k) with
    | .ok w => getPath w ks
    | .error e => .error e

/-- The message of a JS `SyntaxError` raised while compiling an expression. -/
def malformedMsg : String := "SyntaxError: Unexpected token"

/-- Modelled from the spec: the host-language evaluation of
`new Function('scope', 'with (scope) { return ( <expr> ); }')` applied to the
proxy scope of `createEvalScope` — the JS engine executing it is not part of
this repository.  The modelled fragment (see module comment) covers the
keyword literals, identifier paths resolved through `createEvalScope`, and a
syntax error for everything else. -/
def evalRestricted (globals data : Obj) (src : String) : Except String Value :=
  let t := trimString src
  if t = "true" then .ok (.vBool true)
  else if t = "false" then .ok (.vBool false)
  else if t = "null" then .ok .vNull
  else
    match splitOnChar '.' t.data with
    | [] => .error malformedMsg
    | headPart :: restParts =>
      if identShape headPart && restParts.all identShape then
        getPath (createEvalScope data globals (String.mk headPart)) restParts
      else .error malformedMsg

/-- The error kinds thrown by the engine (the source throws `Error` values
with these message shapes; the constructors carry the varying part). -/
inductive RenderError where
  | templateNotFound (name : String)
  | cyclicInclude (chain : String)
  | renderDepthExceeded
  | expressionEvaluation (message : String)
deriving DecidableEq

/-- `safeEval` (src lines 303–314): evaluate and, on any error, rethrow with
the offending expression text and the underlying cause. -/
def safeEval (globals data : Obj) (expression : String) : Except RenderError Value :=
  match evalRestricted globals data expression with
  | .ok v => .ok v
  | .error msg =>
    .error (.expressionEvaluation
      ("Expression evaluation failed for \"" ++ expression ++ "\": " ++ msg))

/-- `safeEvalBoolean` (src lines 297–300): `Boolean(safeEval(...))`. -/
def safeEvalBoolean (globals data : Obj) (expression : String) : Except RenderError Bool :=
  match safeEval globals data expression with
  | .ok v => .ok (truthy v)
  | .error e => .error e

/-! ### HTML escaping -/

/-- One global single-character replacement, the semantics of
`str.replace(/c/g, rep)` for a single-character pattern: every occurrence is
replaced and replacements are not rescanned. -/
def replaceCharList (pat : Char) (rep : List Char) : List Char → List Char
  | [] => []
  | c :: cs => (if c == pat then rep else [c]) ++ replaceCharList pat rep cs

/-- `escapeHtml` (src lines 271–278): the five global replacements in source
order `&`, `"`, `'`, `<`, `>`. -/
def escapeHtml (str : String) : String :=
  String.mk
    (replaceCharList '>' "&gt;".data
      (replaceCharList '<' "&lt;".data
        (replaceCharList squoteChar "&#39;".data
          (replaceCharList dquoteChar "&quot;".data
            (replaceCharList '&' "&amp;".data str.data)))))

/-! ### The interpolation pass -/

/-- The capture group `\s*([^}]+?)\s*` of the interpolation regexes: the body
trimmed, except that an all-whitespace body captures a single space (the lazy
one-or-more must still consume one character). -/
def captureTrim (body : List Char) : String :=
  let t := trimChars body
  if t.isEmpty then String.mk [' '] else String.mk t

/-- Try to match `{{{` `[^}]+` `}}}` at the head of the input; returns the
raw body and the input after the match. -/
def matchTripleAt (cs : List Char) : Option (List Char × List Char) :=
  match cs with
  | c1 :: c2 :: c3 :: rest =>
    if c1 = lbrace ∧ c2 = lbrace ∧ c3 = lbrace then
      let body := rest.takeWhile (fun c => c != rbrace)
      match rest.dropWhile (fun c => c != rbrace) with
      | d1 :: d2 :: d3 :: tail =>
        if d1 = rbrace ∧ d2 = rbrace ∧ d3 = rbrace ∧ body ≠ [] then
          some (body, tail)
        else none
      | _ => none
    else none
  | _ => none

/-- Try to match `{{` `[^}]+` `}}` at the head of the input. -/
def matchDoubleAt (cs : List Char) : Option (List Char × List Char) :=
  match cs with
  | c1 :: c2 :: rest =>
    if c1 = lbrace ∧ c2 = lbrace then
      let body := rest.takeWhile (fun c => c != rbrace)
      match rest.dropWhile (fun c => c != rbrace) with
      | d1 :: d2 :: tail =>
        if d1 = rbrace ∧ d2 = rbrace ∧ body ≠ [] then
          some (body, tail)
        else none
      | _ => none
    else none
  | _ => none

/-- The substituted text of the raw (triple-brace) pass: null/undefined become
empty, otherwise `String(value)` verbatim. -/
def rawText (v : Value) : String :=
  match v with
  | .vNull => ""
  | v => toStringJS v

/-- The substituted text of the escaped (double-brace) pass: null/undefined
become empty, otherwise `escapeHtml(String(value))`. -/
def escText (v : Value) : String :=
  match v with
  | .vNull => ""
  | v => escapeHtml (toStringJS v)

/-- The left-to-right scan of `html.replace(/\{\{\{\s*([^}]+?)\s*\}\}\}/g, ...)`:
at each position try the pattern; on a match substitute and continue scanning
AFTER the substituted text (a replacement is never rescanned by the same
pass).  The structural fuel is at least the input length plus one at every
call, so the zero-fuel branch is unreachable. -/
def runTriplePass (ev : String → Except RenderError Value) :
    Nat → List Char → Except RenderError (List Char)
  | 0, cs => .ok cs
  | _ + 1, [] => .ok []
  | fuel + 1, c :: cs =>
    match matchTripleAt (c :: cs) with
    | some (body, rest) =>
      match ev (captureTrim body) with
      | .ok v =>
        match runTriplePass ev fuel rest with
        | .ok tail => .ok ((rawText v).data ++ tail)
        | .error e => .error e
      | .error e => .error e
    | none =>
      match runTriplePass ev fuel cs with
      | .ok tail => .ok (c :: tail)
      | .error e => .error e

/-- The left-to-right scan of `html.replace(/\{\{\s*([^}]+?)\s*\}\}/g, ...)`. -/
def runDoublePass (ev : String → Except RenderError Value) :
    Nat → List Char → Except RenderError (List Char)
  | 0, cs => .ok cs
  | _ + 1, [] => .ok []
  | fuel + 1, c :: cs =>
    match matchDoubleAt (c :: cs) with
    | some (body, rest) =>
      match ev (captureTrim body) with
      | .ok v =>
        match runDoublePass ev fuel rest with
        | .ok tail => .ok ((escText v).data ++ tail)
        | .error e => .error e
      | .error e => .error e
    | none =>
      match runDoublePass ev fuel cs with
      | .ok tail => .ok (c :: tail)
      | .error e => .error e

/-- `interpolate` (src lines 255–269): first the raw triple-brace pass over
the whole string, then the escaped double-brace pass over the RESULT of the
first pass. -/
def interpolate (globals data : Obj) (html : String) : Except RenderError String :=
  match runTriplePass (safeEval globals data) (html.data.length + 1) html.data with
  | .error e => .error e
  | .ok pass1 =>
    match runDoublePass (safeEval globals data) (pass1.length + 1) pass1 with
    | .error e => .error e
    | .ok pass2 => .ok (String.mk pass2)

/-! ### Markup model -/

/-- Structural markup: literal text, a self-closing element `<tag attrs/>`
(the only shape the include pass matches), and an open/close element
`<tag attrs>children</tag>` (the shape the loop and conditional passes
match).  Attribute values are the literal strings between the quotes. -/
inductive Node where
  | text (s : String)
  | selfClosing (tag : String) (attrs : List (String × String))
  | element (tag : String) (attrs : List (String × String)) (children : List Node)

/-- First attribute with the given name, as the loop/conditional regexes find
it. -/
def attrsLookup : List (String × String) → String → Option String
  | [], _ => none
  | (k, v) :: rest, key => if k = key then some v else attrsLookup rest key

/-- The `x-row` alias, trimmed, defaulting to `item` (src lines 223–224). -/
def aliasOf (attrs : List (String × String)) : String :=
  match attrsLookup attrs "x-row" with
  | some a => trimString a
  | none => "item"

/-- Strip the loop attributes from the emitted open tag (src lines 233–237). -/
def stripLoopAttrs (attrs : List (String × String)) : List (String × String) :=
  attrs.filter (fun kv => !(kv.1 == "x-for" || kv.1 == "x-row"))

/-- Strip the condition attribute from the emitted open tag (src line 206). -/
def stripIfAttr (attrs : List (String × String)) : List (String × String) :=
  attrs.filter (fun kv => !(kv.1 == "x-if"))

/-- One serialized attribute `key="value"`. -/
def attrText (kv : String × String) : String :=
  kv.1 ++ "=\"" ++ kv.2 ++ "\""

/-- The serialized open tag, `<tag>` when there are no attributes and
`<tag attrs>` otherwise (src lines 207, 238). -/
def openTagText (tag : String) (attrs : List (String × String)) : String :=
  if attrs.isEmpty then "<" ++ tag ++ ">"
  else "<" ++ tag ++ " " ++ String.intercalate " " (attrs.map attrText) ++ ">"

/-- The serialized close tag `</tag>`. -/
def closeTagText (tag : String) : String := "</" ++ tag ++ ">"

mutual
/-- Serialize one node back to markup text. -/
def serializeNode : Node → String
  | .text s => s
  | .selfClosing tag attrs =>
    if attrs.isEmpty then "<" ++ tag ++ "/>"
    else "<" ++ tag ++ " " ++ String.intercalate " " (attrs.map attrText) ++ "/>"
  | .element tag attrs children =>
    openTagText tag attrs ++ serializeList children ++ closeTagText tag

/-- Serialize a node list back to markup text. -/
def serializeList : List Node → String
  | [] => ""
  | n :: ns => serializeNode n ++ serializeList ns
end

/-- Strip a leading byte-order mark (src lines 147–150). -/
def stripBom : List Node → List Node
  | .text s :: rest =>
    match s.data with
    | c :: cs => if c = bomChar then .text (String.mk cs) :: rest else .text s :: rest
    | [] => .text s :: rest
  | ns => ns

/-- The engine state the render path reads: the template registry
(`templateNameToRecord.get`, modelled as a partial map to parsed markup), the
name-normalization flag, and the ambient JS global object that
`createEvalScope` falls back to. -/
structure TemplateEngine where
  templates : String → Option (List Node)
  caseInsensitiveNames : Bool
  globals : Obj

/-- `parseAttributes` (src lines 280–295) on one attribute value: a value that
is exactly one `{{ expr }}` interpolation (the anchored regex
`^\{\{\s*([\s\S]+?)\s*\}\}$`) is evaluated to its native value; any other
value stays a literal string. -/
def parseAttrValue (globals data : Obj) (rawValue : String) : Except RenderError Value :=
  match rawValue.data with
  | c1 :: c2 :: rest =>
    if c1 = lbrace ∧ c2 = lbrace then
      match rest.reverse with
      | d1 :: d2 :: revMid =>
        if d1 = rbrace ∧ d2 = rbrace ∧ revMid ≠ [] then
          safeEval globals data (captureTrim revMid.reverse)
        else .ok (.vStr rawValue)
      | _ => .ok (.vStr rawValue)
    else .ok (.vStr rawValue)
  | _ => .ok (.vStr rawValue)

/-- `parseAttributes` (src lines 280–295): evaluate each attribute value in
order; later duplicate keys overwrite earlier ones (modelled by putting later
entries first, since `lookupField` takes the first match). -/
def parseAttributes (globals data : Obj) : List (String × String) → Except RenderError Obj
  | [] => .ok []
  | (key, rawValue) :: rest =>
    match parseAttrValue globals data rawValue with
    | .error e => .error e
    | .ok v =>
      match parseAttributes globals data rest with
      | .error e => .error e
      | .ok restObj => .ok (restObj ++ [(key, v)])

/-- One loop iteration batch (the `for` loop of src lines 240–247): for each
element of the array, in order, build the child scope
`{...data, [alias]: row, $index: index}`, render the element body against it
(at the next depth, i.e. with the decremented fuel captured in `render`), and
emit open tag + rendered body + close tag.  The rendered body is wrapped as
an inert text node; the source splices it into the string that the pass
re-run and the later passes re-scan (divergence note in the module comment). -/
def loopEmit (render : List Node → Obj → List String → Except RenderError String)
    (tag : String) (cleaned : List (String × String)) (children : List Node)
    (data : Obj) (stack : List String) (rowAlias : String) :
    List Value → Nat → Except RenderError (List Node)
  | [], _ => .ok []
  | row :: more, index =>
    match render children (("$index", Value.vNum index) :: (rowAlias, row) :: data) stack with
    | .error e => .error e
    | .ok inner =>
      match loopEmit render tag cleaned children data stack rowAlias more (index + 1) with
      | .error e => .error e
      | .ok rest => .ok (.element tag cleaned [.text inner] :: rest)

mutual
/-- `applyLoops` (src lines 217–253), structurally: scan the markup for
elements carrying `x-for`; evaluate the loop source; a non-array value
removes the whole element; an array emits one copy of the element (loop
attributes stripped) per array element, the body rendered against the child
scope; other elements are scanned inside. -/
def applyLoops (globals : Obj)
    (render : List Node → Obj → List String → Except RenderError String) :
    List Node → Obj → List String → Except RenderError (List Node)
  | [], _, _ => .ok []
  | node :: rest, data, stack =>
    match applyLoopsNode globals render node data stack with
    | .error e => .error e
    | .ok headOut =>
      match applyLoops globals render rest data stack with
      | .error e => .error e
      | .ok restOut => .ok (headOut ++ restOut)

/-- The per-element behaviour of the loop pass (the replacement callback of
src lines 221–248). -/
def applyLoopsNode (globals : Obj)
    (render : List Node → Obj → List String → Except RenderError String) :
    Node → Obj → List String → Except RenderError (List Node)
  | .element tag attrs children, data, stack =>
    (match attrsLookup attrs "x-for" with
     | some expr =>
       (match safeEval globals data expr with
        | .error e => .error e
        | .ok iterable =>
          match iterable with
          | .vArr items =>
            loopEmit render tag (stripLoopAttrs attrs) children data stack
              (aliasOf attrs) items 0
          | _ => .ok [])
     | none =>
       match applyLoops globals render children data stack with
       | .error e => .error e
       | .ok children2 => .ok [.element tag attrs children2])
  | node, _, _ => .ok [node]
end

mutual
/-- `applyConditionals` (src lines 193–215), structurally: scan for elements
carrying `x-if`; a falsy condition removes the element entirely; a truthy one
strips the attribute and renders the body against the UNCHANGED scope. -/
def applyConditionals (globals : Obj)
    (render : List Node → Obj → List String → Except RenderError String) :
    List Node → Obj → List String → Except RenderError (List Node)
  | [], _, _ => .ok []
  | node :: rest, data, stack =>
    match applyConditionalsNode globals render node data stack with
    | .error e => .error e
    | .ok headOut =>
      match applyConditionals globals render rest data stack with
      | .error e => .error e
      | .ok restOut => .ok (headOut ++ restOut)

/-- The per-element behaviour of the conditional pass (the replacement
callback of src lines 197–210).  The rendered body is wrapped as an inert
text node; the source splices it into the string that the later passes
re-scan (divergence note in the module comment). -/
def applyConditionalsNode (globals : Obj)
    (render : List Node → Obj → List String → Except RenderError String) :
    Node → Obj → List String → Except RenderError (List Node)
  | .element tag attrs children, data, stack =>
    (match attrsLookup attrs "x-if" with
     | some expr =>
       (match safeEvalBoolean globals data expr with
        | .error e => .error e
        | .ok condition =>
          if condition then
            match render children data stack with
            | .error e => .error e
            | .ok inner => .ok [.element tag (stripIfAttr attrs) [.text inner]]
          else .ok [])
     | none =>
       match applyConditionals globals render children data stack with
       | .error e => .error e
       | .ok children2 => .ok [.element tag attrs children2])
  | node, _, _ => .ok [node]
end

mutual
/-- `applyIncludes` (src lines 167–191), structurally: scan for self-closing
elements whose normalized tag name is a registered template; parse the
attributes, check the render stack for a cycle, then render the target
template's content against the child scope with the name appended to the
stack. -/
def applyIncludes (eng : TemplateEngine)
    (render : List Node → Obj → List String → Except RenderError String) :
    List Node → Obj → List String → Except RenderError (List Node)
  | [], _, _ => .ok []
  | node :: rest, data, stack =>
    match applyIncludesNode eng render node data stack with
    | .error e => .error e
    | .ok headOut =>
      match applyIncludes eng render rest data stack with
      | .error e => .error e
      | .ok restOut => .ok (headOut ++ restOut)

/-- The per-element behaviour of the include pass (the replacement callback
of src lines 170–185).  The rendered include output is wrapped as an inert
text node; the source splices it into the string that the pass re-run and
the later passes re-scan (divergence note in the module comment). -/
def applyIncludesNode (eng : TemplateEngine)
    (render : List Node → Obj → List String → Except RenderError String) :
    Node → Obj → List String → Except RenderError (List Node)
  | .selfClosing tagName attrs, data, stack =>
    (let normalized := normalizeName eng.caseInsensitiveNames tagName
     match eng.templates normalized with
     | none => .ok [.selfClosing tagName attrs]
     | some content =>
       match parseAttributes eng.globals data attrs with
       | .error e => .error e
       | .ok attributes =>
         if normalized ∈ stack then
           .error (.cyclicInclude (String.intercalate " -> " (stack ++ [normalized])))
         else
           match render content (attributes ++ data) (stack ++ [normalized]) with
           | .error e => .error e
           | .ok rendered => .ok [.text rendered])
  | .element tag attrs children, data, stack =>
    (match applyIncludes eng render children data stack with
     | .error e => .error e
     | .ok children2 => .ok [.element tag attrs children2])
  | node, _, _ => .ok [node]
end

/-- `renderContent` (src lines 140–165) with the depth guard expressed as
structural fuel (`fuel = 51 - depth`; see module comment): zero fuel is
exactly `depth > 50` and raises the depth error; otherwise strip the BOM,
run the three structural passes and finally interpolate, every recursive
re-render receiving the decremented fuel (`depth + 1`).  The `didReplace`
fixed-point re-runs of the structural passes are not modelled (divergence
note in the module comment). -/
def renderContentFuel (eng : TemplateEngine) :
    Nat → List Node → Obj → List String → Except RenderError String
  | 0, _, _, _ => .error .renderDepthExceeded
  | fuel + 1, nodes, data, renderStack =>
    let render := fun ns d st => renderContentFuel eng fuel ns d st
    match applyLoops eng.globals render (stripBom nodes) data renderStack with
    | .error e => .error e
    | .ok ns1 =>
      match applyConditionals eng.globals render ns1 data renderStack with
      | .error e => .error e
      | .ok ns2 =>
        match applyIncludes eng render ns2 data renderStack with
        | .error e => .error e
        | .ok ns3 => interpolate eng.globals data (serializeList ns3)

/-- `renderContent` at an explicit depth counter. -/
def renderContent (eng : TemplateEngine) (nodes : List Node) (data : Obj)
    (renderStack : List String) (depth : Nat) : Except RenderError String :=
  renderContentFuel eng (51 - depth) nodes data renderStack

/-- `createRootDataProxy` (src lines 116–123): a fresh context holding
`$root = data`, over which an object's own properties (or an array's index
properties) are assigned, so that data fields shadow `$root` on collision. -/
def createRootDataProxy (data : Value) : Obj :=
  match data with
  | .vObj fields => fields ++ [("$root", data)]
  | .vArr items => (items.enum.map (fun p => (toString p.1, p.2))) ++ [("$root", data)]
  | _ => [("$root", data)]

/-- `render` (src lines 86–94): normalize the name, look it up (miss raises
`TemplateNotFound` carrying the requested name verbatim), then render the
record's content against the root scope with an empty render stack and depth
zero. -/
def render (eng : TemplateEngine) (templateName : String) (data : Value) :
    Except RenderError String :=
  match eng.templates (normalizeName eng.caseInsensitiveNames templateName) with
  | none => .error (.templateNotFound templateName)
  | some content => renderContent eng content (createRootDataProxy data) [] 0

/-- JS object spread `{...data}` of an arbitrary value: objects spread their
fields, arrays and strings spread their index properties, primitives and
null/undefined spread to nothing. -/
def spreadFields : Value → List (String × Value)
  | .vObj fields => fields
  | .vArr items => items.enum.map (fun p => (toString p.1, p.2))
  | .vStr s => s.data.enum.map (fun p => (toString p.1, Value.vStr (String.mk [p.2])))
  | _ => []

/-- `renderWithLayout` (src lines 105–114): render the inner template first,
then render the layout with `{...data, [contentVarName]: innerHtml}` (the
source defaults `contentVarName` to `"content"`; the model passes it
explicitly). -/
def renderWithLayout (eng : TemplateEngine) (layoutTemplateName innerTemplateName : String)
    (data : Value) (contentVarName : String) : Except RenderError String :=
  match render eng innerTemplateName data with
  | .error e => .error e
  | .ok innerHtml =>
    render eng layoutTemplateName
      (.vObj ((contentVarName, Value.vStr innerHtml) :: spreadFields data))

/-! ### The reload path (src lines 36–41) -/

/-- The record map of the registry, keyed by normalized name, in `Map`
insertion order. -/
abbrev RegistryMap := List (String × List Node)

/-- JS `Map.prototype.set`: overwrite in place if the key exists (keeping its
position), otherwise append. -/
def mapSet (m : RegistryMap) (k : String) (v : List Node) : RegistryMap :=
  match m with
  | [] => [(k, v)]
  | (k2, v2) :: rest => if k2 = k then (k, v) :: rest else (k2, v2) :: mapSet rest k v

/-- The record set after `reload()` has finished, given the templates the
directory scan yields in order (`scanDirectory` calls
`templateNameToRecord.set` once per discovered file, so later duplicates
overwrite earlier ones). -/
def reload (scanned : List (String × List Node)) : RegistryMap :=
  scanned.foldl (fun m kv => mapSet m kv.1 kv.2) []

/-- The successive states of the shared record map from some state `m`, one
state before each in-place `set` plus the final state. -/
def reloadStatesAux (m : RegistryMap) : List (String × List Node) → List RegistryMap
  | [] => [m]
  | kv :: rest => m :: reloadStatesAux (mapSet m kv.1 kv.2) rest

/-- The successive states of the SHARED record map during `reload()`
(src lines 36–41): `templateNameToRecord.clear()` first (the head state is the
empty map), then one in-place `set` per scanned template.  The map is mutated
in place; no replacement set is built off to the side. -/
def reloadStates (scanned : List (String × List Node)) : List RegistryMap :=
  reloadStatesAux [] scanned

/-! ### Generic helper lemmas -/

theorem string_eta : ∀ s : String, String.mk s.data = s := fun ⟨_⟩ => rfl

theorem strApp_data : ∀ a b : String, (a ++ b).data = a.data ++ b.data :=
  fun ⟨_⟩ ⟨_⟩ => rfl

theorem strApp_assoc (a b c : String) : a ++ b ++ c = a ++ (b ++ c) := by
  cases a; cases b; cases c
  exact congrArg String.mk (List.append_assoc _ _ _)

theorem strApp_empty (a : String) : a ++ "" = a := by
  cases a
  exact congrArg String.mk (List.append_nil _)

theorem dropWhile_eq_self_of_none (p : Char → Bool) :
    ∀ cs : List Char, (∀ c ∈ cs, p c = false) → cs.dropWhile p = cs := by
  intro cs h
  cases cs with
  | nil => rfl
  | cons c rest =>
    rw [List.dropWhile_cons, h c (List.mem_cons_self c rest)]
    simp

theorem trimChars_eq_self (cs : List Char) (h : ∀ c ∈ cs, isSpaceChar c = false) :
    trimChars cs = cs := by
  unfold trimChars
  rw [dropWhile_eq_self_of_none _ cs h,
      dropWhile_eq_self_of_none _ cs.reverse (by intro c hc; exact h c (List.mem_reverse.mp hc)),
      List.reverse_reverse]

theorem isIdentOther_not_space (c : Char) (h : isIdentOther c = true) :
    isSpaceChar c = false := by
  by_contra hne
  have hsp : isSpaceChar c = true := by
    cases hq : isSpaceChar c
    · exact absurd hq hne
    · rfl
  unfold isSpaceChar at hsp
  simp only [Bool.or_eq_true, beq_iff_eq] at hsp
  rcases hsp with (((rfl | rfl) | rfl) | rfl) <;> simp [isIdentOther, isIdentStart] at h

theorem isIdentOther_not_dot (c : Char) (h : isIdentOther c = true) : c ≠ '.' := by
  rintro rfl
  simp [isIdentOther, isIdentStart] at h

theorem identShape_all_other (cs : List Char) (h : identShape cs = true) :
    ∀ c ∈ cs, isIdentOther c = true := by
  cases cs with
  | nil => simp [identShape] at h
  | cons c rest =>
    simp only [identShape, Bool.and_eq_true] at h
    intro d hd
    rcases List.mem_cons.mp hd with rfl | hdr
    · simp [isIdentOther, h.1]
    · exact (List.all_eq_true.mp h.2) d hdr

theorem splitOnChar_no_sep (sep : Char) :
    ∀ cs : List Char, sep ∉ cs → splitOnChar sep cs = [cs] := by
  intro cs
  induction cs with
  | nil => intro _; rfl
  | cons c rest ih =>
    intro h
    have hc : ¬c = sep := fun he => h (he ▸ List.mem_cons_self c rest)
    have hrest : sep ∉ rest := fun hm => h (List.mem_cons_of_mem c hm)
    unfold splitOnChar
    rw [ih hrest]
    simp only [beq_eq_false_iff_ne, ne_eq]
    rw [if_neg (by simpa using fun he : (c == sep) = true => hc (by simpa using he))]

theorem trimString_of_ident (name : String) (h : identShape name.data = true) :
    trimString name = name := by
  unfold trimString
  rw [trimChars_eq_self name.data
        (fun c hc => isIdentOther_not_space c (identShape_all_other name.data h c hc)),
      string_eta]

/-- Evaluating a plain identifier resolves it through the scope proxy of
`createEvalScope` and nothing else. -/
theorem evalRestricted_ident (globals data : Obj) (name : String)
    (h : isIdentifier name = true) :
    evalRestricted globals data name = .ok (createEvalScope data globals name) := by
  unfold isIdentifier at h
  simp only [Bool.and_eq_true, Bool.not_eq_true', Bool.or_eq_false_iff, beq_eq_false_iff_ne,
    ne_eq] at h
  obtain ⟨hshape, hkw⟩ := h
  have htrim : trimString name = name := trimString_of_ident name hshape
  have hnodot : ('.' : Char) ∉ name.data := fun hm =>
    isIdentOther_not_dot _ (identShape_all_other name.data hshape _ hm) rfl
  unfold evalRestricted
  rw [htrim, if_neg hkw.1.1, if_neg hkw.1.2, if_neg hkw.2,
      splitOnChar_no_sep '.' name.data hnodot]
  simp only [hshape, List.all_nil, Bool.and_self, if_true, string_eta]
  rfl

/-- Evaluating a scope-bound identifier yields its scope value: the proxy
`get` checks `p in t` before the `globalThis` fallback. -/
theorem safeEval_ident_bound (globals scope : Obj) (name : String) (v : Value)
    (hid : isIdentifier name = true) (hb : lookupField scope name = some v) :
    safeEval globals scope name = .ok v := by
  unfold safeEval
  rw [evalRestricted_ident globals scope name hid]
  unfold createEvalScope
  rw [hb]

/-- Evaluating an identifier bound in neither the scope nor the global object
yields undefined (hence the empty string at an interpolation site). -/
theorem safeEval_ident_unbound (globals scope : Obj) (name : String)
    (hid : isIdentifier name = true) (hs : lookupField scope name = none)
    (hg : lookupField globals name = none) :
    safeEval globals scope name = .ok .vNull := by
  unfold safeEval
  rw [evalRestricted_ident globals scope name hid]
  unfold createEvalScope
  rw [hs, hg]

/-! ### Claim C1 -/

/-- C1 (counterexample): expression evaluation is NOT a pure function of the
pair (expression, scope).  The scope proxy of `createEvalScope` (src line
133: `if (p in globalThis) return globalThis[p]`) falls back to the ambient
global object, so the same expression `version` evaluated against the same
(empty) scope yields different values under different global states. -/
theorem c1_not_pure_of_scope :
    safeEval [("version", .vStr "one")] [] "version" = .ok (.vStr "one")
    ∧ safeEval [("version", .vStr "two")] [] "version" = .ok (.vStr "two")
    ∧ (Except.ok (Value.vStr "one") : Except RenderError Value) ≠ .ok (.vStr "two") := by
  refine ⟨rfl, rfl, ?_⟩
  simp

/-- C1 (amended): evaluation is a pure function of (expression, scope, global
object); identifiers are resolved against the explicitly bound scope first,
and only identifiers absent from the scope fall back to the ambient global
object — in particular a scope-bound identifier evaluates to its scope value
regardless of the global state. -/
theorem c1_scope_shadows_globals (name : String) (scope g1 g2 : Obj) (v : Value)
    (hid : isIdentifier name = true) (hb : lookupField scope name = some v) :
    safeEval g1 scope name = .ok v ∧ safeEval g2 scope name = .ok v :=
  ⟨safeEval_ident_bound g1 scope name v hid hb,
   safeEval_ident_bound g2 scope name v hid hb⟩

/-- C1 (witness): the amended theorem at a concrete input. -/
theorem c1_scope_shadows_globals_witness :
    safeEval [("user", .vStr "g1")] [("user", .vStr "bound")] "user" = .ok (.vStr "bound")
    ∧ safeEval [] [("user", .vStr "bound")] "user" = .ok (.vStr "bound") :=
  c1_scope_shadows_globals "user" [("user", .vStr "bound")]
    [("user", .vStr "g1")] [] (.vStr "bound") (by rfl) (by rfl)

/-! ### Claim C2 -/

/-- The engine of the C2 error-propagation example: one template `bad` whose
body is the single malformed interpolation. -/
def engBad : TemplateEngine :=
  { templates := fun s => if s = "bad" then some [.text "\x7b\x7b )( \x7d\x7d"] else none
    caseInsensitiveNames := true
    globals := [] }

/-- C2 (counterexample): as stated, the claim fails — an identifier not bound
in the scope does NOT always substitute the empty string, because the scope
proxy falls back to the ambient global object (src line 133): with `user`
bound only in `globalThis`, `{{ user }}` renders the global value, not the
empty string. -/
theorem c2_unbound_not_always_empty :
    interpolate [("user", .vObj [])] [("$root", .vNull)] "\x7b\x7b user \x7d\x7d"
      = .ok "[object Object]"
    ∧ (Except.ok "[object Object]" : Except RenderError String) ≠ .ok "" := by
  refine ⟨rfl, ?_⟩
  simp

/-- C2 (amended): an interpolation whose expression is a well-formed
identifier bound neither in the scope nor on the global object substitutes
the empty string and raises no error; a syntactically malformed expression
(`)(`), or one failing at runtime with a type error (`nope.x`), raises an
`ExpressionEvaluationError` naming the exact offending expression text and
the underlying cause, and this error propagates to the caller of `render`. -/
theorem c2_error_handling :
    (∀ (globals scope : Obj) (name : String), isIdentifier name = true →
        lookupField scope name = none → lookupField globals name = none →
        safeEval globals scope name = .ok .vNull)
    ∧ interpolate [] [("$root", .vNull)] "\x7b\x7b nope \x7d\x7d" = .ok ""
    ∧ safeEval [] [] ")(" = .error (.expressionEvaluation
        "Expression evaluation failed for \")(\": SyntaxError: Unexpected token")
    ∧ safeEval [] [] "nope.x" = .error (.expressionEvaluation
        "Expression evaluation failed for \"nope.x\": TypeError: Cannot read properties of undefined (reading 'x')")
    ∧ render engBad "bad" (.vObj []) = .error (.expressionEvaluation
        "Expression evaluation failed for \")(\": SyntaxError: Unexpected token") :=
  ⟨safeEval_ident_unbound, rfl, rfl, rfl, rfl⟩

/-- C2 (witness): the amended theorem's universally quantified part at a
concrete input. -/
theorem c2_error_handling_witness :
    safeEval [] [] "nope" = .ok .vNull :=
  c2_error_handling.1 [] [] "nope" (by rfl) (by rfl) (by rfl)

/-! ### Claim C10 -/

/-- The engine of the C10 `$root` example. -/
def engRoot : TemplateEngine :=
  { templates := fun s => if s = "t" then some [.text "\x7b\x7b $root \x7d\x7d"] else none
    caseInsensitiveNames := true
    globals := [] }

/-- The engine of the C10 absent-identifier example. -/
def engMiss : TemplateEngine :=
  { templates := fun s => if s = "t" then some [.text "\x7b\x7b miss \x7d\x7d"] else none
    caseInsensitiveNames := true
    globals := [] }

/-- The engine of the C10 counterexample: the template reads an identifier
that exists on the ambient global object. -/
def engGlob : TemplateEngine :=
  { templates := fun s => if s = "t" then some [.text "\x7b\x7b process \x7d\x7d"] else none
    caseInsensitiveNames := true
    globals := [("process", .vObj [])] }

/-- Non-object data: null/undefined, numbers, strings and booleans (the
values for which `createRootDataProxy` skips the `Object.assign`). -/
def isPrimitiveData : Value → Bool
  | .vObj _ => false
  | .vArr _ => false
  | _ => true

/-- C10 (counterexample): with non-object data it is NOT the case that every
identifier other than `$root` resolves as absent — an identifier present on
the ambient global object (here `process`, as on any Node runtime) resolves
to the global value, so `{{ process }}` renders `[object Object]` rather than
the empty string. -/
theorem c10_globals_leak :
    render engGlob "t" (.vNum 7) = .ok "[object Object]"
    ∧ (Except.ok "[object Object]" : Except RenderError String) ≠ .ok "" := by
  refine ⟨rfl, ?_⟩
  simp

/-- C10 (amended): for every non-object data argument, building the root
scope does not fail and yields exactly the single binding `$root` holding the
data value unchanged, with no flattened bindings; `{{ $root }}` interpolates
the value, and every other identifier is absent from the scope (resolution
then falls back to the global object, so an identifier absent from both
yields the empty string). -/
theorem c10_primitive_root_scope :
    (∀ data : Value, isPrimitiveData data = true →
        createRootDataProxy data = [("$root", data)])
    ∧ render engRoot "t" (.vNum 7) = .ok "7"
    ∧ render engMiss "t" (.vNum 7) = .ok "" := by
  refine ⟨?_, rfl, rfl⟩
  intro data h
  cases data <;> simp [isPrimitiveData] at h <;> rfl

/-- C10 (witness): the amended theorem's universally quantified part at a
concrete input. -/
theorem c10_primitive_root_scope_witness :
    createRootDataProxy (.vBool true) = [("$root", .vBool true)] :=
  c10_primitive_root_scope.1 (.vBool true) (by rfl)

/-! ### Claim C6 -/

/-- The entity each escaped character maps to, as the spec words it. -/
def entityOf (c : Char) : String :=
  if c = '&' then "&amp;"
  else if c = dquoteChar then "&quot;"
  else if c = squoteChar then "&#39;"
  else if c = '<' then "&lt;"
  else if c = '>' then "&gt;"
  else String.mk [c]

/-- The spec-side description of escaping: each input character is replaced
by its entity independently of its neighbours — so the ampersand replacement
cannot double-escape entities produced by the later replacements. -/
def escapeSpec : List Char → List Char
  | [] => []
  | c :: rest => (entityOf c).data ++ escapeSpec rest

/-- The five nested replacements of `escapeHtml`, on character lists. -/
def escapeChain (cs : List Char) : List Char :=
  replaceCharList '>' "&gt;".data
    (replaceCharList '<' "&lt;".data
      (replaceCharList squoteChar "&#39;".data
        (replaceCharList dquoteChar "&quot;".data
          (replaceCharList '&' "&amp;".data cs))))

theorem replaceCharList_append (pat : Char) (rep : List Char) :
    ∀ xs ys : List Char,
      replaceCharList pat rep (xs ++ ys)
        = replaceCharList pat rep xs ++ replaceCharList pat rep ys := by
  intro xs ys
  induction xs with
  | nil => rfl
  | cons c rest ih =>
    show (if c == pat then rep else [c]) ++ replaceCharList pat rep (rest ++ ys) = _
    rw [ih, ← List.append_assoc]
    rfl

theorem escapeChain_append (xs ys : List Char) :
    escapeChain (xs ++ ys) = escapeChain xs ++ escapeChain ys := by
  unfold escapeChain
  rw [replaceCharList_append '&', replaceCharList_append dquoteChar,
      replaceCharList_append squoteChar, replaceCharList_append '<',
      replaceCharList_append '>']

theorem escapeChain_single (c : Char) : escapeChain [c] = (entityOf c).data := by
  by_cases h1 : c = '&'
  · subst h1; rfl
  by_cases h2 : c = dquoteChar
  · subst h2; rfl
  by_cases h3 : c = squoteChar
  · subst h3; rfl
  by_cases h4 : c = '<'
  · subst h4; rfl
  by_cases h5 : c = '>'
  · subst h5; rfl
  have b1 : (c == '&') = false := by simp [h1]
  have b2 : (c == dquoteChar) = false := by simp [h2]
  have b3 : (c == squoteChar) = false := by simp [h3]
  have b4 : (c == '<') = false := by simp [h4]
  have b5 : (c == '>') = false := by simp [h5]
  simp [escapeChain, replaceCharList, b1, b2, b3, b4, b5, entityOf, h1, h2, h3, h4, h5]

theorem escapeChain_eq_spec : ∀ cs : List Char, escapeChain cs = escapeSpec cs := by
  intro cs
  induction cs with
  | nil => rfl
  | cons c rest ih =>
    have : c :: rest = [c] ++ rest := rfl
    rw [this, escapeChain_append, escapeChain_single, ih]
    rfl

/-- C6: double-brace interpolation stringifies and HTML-escapes the value by
the five replacements `&`, `"`, `'`, `<`, `>` in that source order, which is
equivalent to replacing every input character independently by its entity
(`escapeSpec`) — so the ampersand replacement never double-escapes the
entities the later replacements produce; null/undefined become empty;
`{{ v }}` with `v = "<b>"` yields `&lt;b&gt;` while `{{{ v }}}` yields `<b>`
verbatim. -/
theorem c6_escaped_interpolation :
    (∀ s : String, escapeHtml s = String.mk (escapeSpec s.data))
    ∧ interpolate [] [("v", .vStr "<b>")] "\x7b\x7b v \x7d\x7d" = .ok "&lt;b&gt;"
    ∧ interpolate [] [("v", .vStr "<b>")] "\x7b\x7b\x7b v \x7d\x7d\x7d" = .ok "<b>"
    ∧ interpolate [] [("v", .vNull)] "\x7b\x7b v \x7d\x7d" = .ok "" := by
  refine ⟨?_, rfl, rfl, rfl⟩
  intro s
  show String.mk (escapeChain s.data) = String.mk (escapeSpec s.data)
  rw [escapeChain_eq_spec]

/-! ### Claim C7 -/

/-- The engine of the C7 outermost-render example: the raw value contains an
`x-if` directive element, which reaches the output verbatim because this
render is outermost and interpolation is `renderContent`'s last step — in
this source trace no pass runs after it (a NESTED render's output would be
re-scanned by the enclosing passes instead). -/
def engRaw : TemplateEngine :=
  { templates := fun s => if s = "t" then some [.text "\x7b\x7b\x7b v \x7d\x7d\x7d"] else none
    caseInsensitiveNames := true
    globals := [] }

/-- The engine of the C7 nested-interpolation example: the conditional body
interpolates `v` during the inner render; the enclosing render then
re-scans the spliced result with its own interpolation pass. -/
def engNest : TemplateEngine :=
  { templates := fun s =>
      if s = "t" then
        some [.element "div" [("x-if", "true")] [.text "\x7b\x7b v \x7d\x7d"]]
      else none
    caseInsensitiveNames := true
    globals := [] }

/-- C7 (counterexample): a triple-delimited `{{{ expr }}}` whose value
contains interpolation delimiters is NOT emitted verbatim: the second
(double-brace) substitution pass runs over the output of the first, so with
`v = "{{ x }}"` and `x = "S"` the rendered result is `S`, not the text
`{{ x }}`. -/
theorem c7_raw_value_reexpanded :
    interpolate [] [("v", .vStr "\x7b\x7b x \x7d\x7d"), ("x", .vStr "S")]
      "\x7b\x7b\x7b v \x7d\x7d\x7d" = .ok "S"
    ∧ (Except.ok "S" : Except RenderError String) ≠ .ok "\x7b\x7b x \x7d\x7d" := by
  refine ⟨rfl, ?_⟩
  simp

/-- C7 (amended): interpolation runs exactly two substitution sub-passes,
the raw triple-brace pass first and the escaped double-brace pass second,
the escaped pass scanning the raw pass's output — after raw-substituting a
value `v` the escaped pass runs over exactly `v` (first conjunct), so
double-brace delimiters inside a raw-substituted value are evaluated rather
than emitted verbatim (third conjunct).  Within one sub-pass a substituted
value is never rescanned: a double-brace substitution lands escaped but
otherwise verbatim, whatever delimiters it contains (second conjunct).
Substituted values are nevertheless not final across render levels: text
interpolated inside a nested render is re-scanned by the enclosing render's
interpolation pass (fourth conjunct: the conditional body's inner
interpolation yields the text of `v`, and the enclosing interpolation then
evaluates the `x` interpolation that text contains); only the outermost
interpolation's output is returned verbatim, interpolation being the last
step of `renderContent` (fifth conjunct). -/
theorem c7_two_pass_rescan :
    (∀ v : String,
        interpolate [] [("x", .vStr v)] "\x7b\x7b\x7b x \x7d\x7d\x7d"
          = Except.map String.mk
              (runDoublePass (safeEval [] [("x", .vStr v)]) (v.data.length + 1) v.data))
    ∧ (∀ v : String,
        interpolate [] [("x", .vStr v)] "\x7b\x7b x \x7d\x7d" = .ok (escapeHtml v))
    ∧ interpolate [] [("v", .vStr "\x7b\x7b x \x7d\x7d"), ("x", .vStr "S")]
        "\x7b\x7b\x7b v \x7d\x7d\x7d" = .ok "S"
    ∧ render engNest "t" (.vObj [("v", .vStr "\x7b\x7b x \x7d\x7d"), ("x", .vStr "S")])
        = .ok "<div>S</div>"
    ∧ render engRaw "t" (.vObj [("v", .vStr "<div x-if=\"q\">H</div>")])
        = .ok "<div x-if=\"q\">H</div>" := by
  refine ⟨?_, ?_, rfl, rfl, rfl⟩
  · intro v
    show (match runDoublePass (safeEval [] [("x", .vStr v)])
            ((v.data ++ []).length + 1) (v.data ++ []) with
          | Except.error e => Except.error e
          | Except.ok p2 => Except.ok (String.mk p2))
        = Except.map String.mk
            (runDoublePass (safeEval [] [("x", .vStr v)]) (v.data.length + 1) v.data)
    rw [List.append_nil]
    rcases h : runDoublePass (safeEval [] [("x", .vStr v)]) (v.data.length + 1) v.data
      with e | p2 <;> rfl
  · intro v
    show Except.ok (String.mk ((escapeHtml v).data ++ [])) = Except.ok (escapeHtml v)
    rw [List.append_nil, string_eta]

/-! ### Claim C8 -/

/-- The engine of the C8 example: the spec's layout and page bodies. -/
def engC8 : TemplateEngine :=
  { templates := fun s =>
      if s = "layout" then
        some [.text ("<h1>\x7b\x7b title \x7d\x7d</h1>" ++ "\x7b\x7b\x7b content \x7d\x7d\x7d")]
      else if s = "page" then some [.text "<p>Hi</p>"]
      else none
    caseInsensitiveNames := true
    globals := [] }

/-- C8: `renderWithLayout` first fully renders the inner template, then
equals `render` of the layout against the data extended with the single
additional property named `contentVarName` holding that string; concretely,
with layout `<h1>{{ title }}</h1>{{{ content }}}` and page `<p>Hi</p>`, the
result is exactly `<h1>T</h1><p>Hi</p>`. -/
theorem c8_render_with_layout :
    (∀ (eng : TemplateEngine) (layoutName innerName : String) (data : Value)
        (cvn : String) (s : String),
        render eng innerName data = .ok s →
        renderWithLayout eng layoutName innerName data cvn
          = render eng layoutName (.vObj ((cvn, .vStr s) :: spreadFields data)))
    ∧ renderWithLayout engC8 "layout" "page" (.vObj [("title", .vStr "T")]) "content"
        = .ok "<h1>T</h1><p>Hi</p>" := by
  refine ⟨?_, rfl⟩
  intro eng layoutName innerName data cvn s h
  unfold renderWithLayout
  rw [h]

/-- C8 (witness): the general part at a concrete input. -/
theorem c8_render_with_layout_witness :
    renderWithLayout engC8 "layout" "page" (.vObj [("title", .vStr "T")]) "content"
      = render engC8 "layout"
          (.vObj [("content", .vStr "<p>Hi</p>"), ("title", .vStr "T")]) :=
  c8_render_with_layout.1 engC8 "layout" "page" (.vObj [("title", .vStr "T")])
    "content" "<p>Hi</p>" (by rfl)

/-! ### Claim C9 -/

/-- The record set before the C9 counterexample reload. -/
def oldRecordsC9 : RegistryMap := [("a", [])]

/-- The templates the directory scan yields during the C9 counterexample
reload. -/
def scannedC9 : List (String × List Node) := [("b", []), ("c", [])]

theorem reloadStatesAux_ne_nil (m : RegistryMap) :
    ∀ l : List (String × List Node), reloadStatesAux m l ≠ [] := by
  intro l
  cases l <;> simp [reloadStatesAux]

theorem reloadStatesAux_getLast :
    ∀ (l : List (String × List Node)) (m : RegistryMap),
      (reloadStatesAux m l).getLast?
        = some (l.foldl (fun acc kv => mapSet acc kv.1 kv.2) m) := by
  intro l
  induction l with
  | nil => intro m; rfl
  | cons kv rest ih =>
    intro m
    show (m :: reloadStatesAux (mapSet m kv.1 kv.2) rest).getLast? = _
    rw [List.getLast?_cons, ih (mapSet m kv.1 kv.2)]
    rfl

theorem reloadStatesAux_length :
    ∀ (l : List (String × List Node)) (m : RegistryMap),
      (reloadStatesAux m l).length = l.length + 1 := by
  intro l
  induction l with
  | nil => intro m; rfl
  | cons kv rest ih =>
    intro m
    show (reloadStatesAux (mapSet m kv.1 kv.2) rest).length + 1 = rest.length + 1 + 1
    rw [ih]

/-- C9 (counterexample): `reload()` does NOT build the replacement set off to
the side and swap it in as the last step — it clears the shared map and then
fills it one `set` at a time (src lines 36–41).  Concretely, reloading from
the old record set `{a}` to the scanned set `{b, c}`, the shared map passes
through the intermediate state `{b}`, which is neither the fully-old nor the
fully-new record set (it is a partial mix: `b` is visible, `c` is not). -/
theorem c9_reload_not_atomic :
    (reloadStates scannedC9).get? 1 = some [("b", [])]
    ∧ ([(("b" : String), ([] : List Node))] ≠ oldRecordsC9)
    ∧ ([(("b" : String), ([] : List Node))] ≠ reload scannedC9) := by
  refine ⟨rfl, ?_, ?_⟩ <;> simp [oldRecordsC9, reload, scannedC9, mapSet]

/-- C9 (amended): `reload()` clears the shared record map and then inserts
each scanned record in place, one at a time: the map passes through
`scanned.length + 1` successive states, starting from the empty (cleared)
map, and its final state is exactly the rescanned record set (later
duplicates overwriting earlier ones).  No replacement set is built off to the
side; the absence of observable partial states relies on the runtime being
single-threaded, not on an atomic swap. -/
theorem c9_reload_states :
    ∀ scanned : List (String × List Node),
      (reloadStates scanned).head? = some []
      ∧ (reloadStates scanned).getLast? = some (reload scanned)
      ∧ (reloadStates scanned).length = scanned.length + 1 := by
  intro scanned
  refine ⟨?_, ?_, ?_⟩
  · cases scanned <;> rfl
  · exact reloadStatesAux_getLast scanned []
  · exact reloadStatesAux_length scanned []

/-! ### Claim C4 -/

/-- The engine of the C4 self-include example: template `a` whose body is the
single self-closing include `<a/>`. -/
def engA : TemplateEngine :=
  { templates := fun s => if s = "a" then some [.selfClosing "a" []] else none
    caseInsensitiveNames := true
    globals := [] }

/-- C4: before expanding a self-closing include whose normalized tag name is
a registered template, the include pass checks the name against the active
render stack and, if present, raises the cyclic-include error naming the full
chain (`stack -> name` joined by arrows); in particular a template that
includes itself always ends in the `CyclicInclude` error (the renderer enters
`a` once with an empty stack, and the nested occurrence trips the guard),
never in unbounded recursion or output. -/
theorem c4_cyclic_include_guard :
    (∀ (eng : TemplateEngine)
        (render : List Node → Obj → List String → Except RenderError String)
        (tagName : String) (attrs : List (String × String)) (rest : List Node)
        (data : Obj) (stack : List String) (content : List Node) (attributes : Obj),
        eng.templates (normalizeName eng.caseInsensitiveNames tagName) = some content →
        parseAttributes eng.globals data attrs = .ok attributes →
        normalizeName eng.caseInsensitiveNames tagName ∈ stack →
        applyIncludes eng render (.selfClosing tagName attrs :: rest) data stack
          = .error (.cyclicInclude (String.intercalate " -> "
              (stack ++ [normalizeName eng.caseInsensitiveNames tagName]))))
    ∧ render engA "a" (.vObj []) = .error (.cyclicInclude "a -> a") := by
  refine ⟨?_, rfl⟩
  intro eng render tagName attrs rest data stack content attributes hreg hparse hmem
  have hnode : applyIncludesNode eng render (.selfClosing tagName attrs) data stack
      = .error (.cyclicInclude (String.intercalate " -> "
          (stack ++ [normalizeName eng.caseInsensitiveNames tagName]))) := by
    unfold applyIncludesNode
    simp only [hreg, hparse]
    rw [if_pos hmem]
  simp only [applyIncludes, hnode]

/-- C4 (witness): the general guard at a concrete input. -/
theorem c4_cyclic_include_guard_witness :
    applyIncludes engA (fun _ _ _ => .ok "") [.selfClosing "a" []]
      [("$root", .vObj [])] ["a"]
      = .error (.cyclicInclude "a -> a") :=
  c4_cyclic_include_guard.1 engA (fun _ _ _ => .ok "") "a" [] []
    [("$root", .vObj [])] ["a"] [.selfClosing "a" []] [] (by rfl) (by rfl)
    (by decide)

/-! ### Claim C5 -/

/-- The loop expansion as the claim words it: for each index `i` from `0` to
`n-1` in order, emit the element's open tag with the loop attributes
stripped, the body rendered against the child scope equal to the current
scope layered with `{alias: element_i, $index: i}` (alias defaulting to
`item`), and the close tag, concatenated with no separator. -/
def loopExpansionSpec
    (render : List Node → Obj → List String → Except RenderError String)
    (tag : String) (attrs : List (String × String)) (children : List Node)
    (data : Obj) (stack : List String) :
    List Value → Nat → Except RenderError String
  | [], _ => .ok ""
  | row :: more, index =>
    match render children (("$index", Value.vNum index) :: (aliasOf attrs, row) :: data) stack with
    | .error e => .error e
    | .ok body =>
      match loopExpansionSpec render tag attrs children data stack more (index + 1) with
      | .error e => .error e
      | .ok restS =>
        .ok (openTagText tag (stripLoopAttrs attrs) ++ body ++ closeTagText tag ++ restS)

theorem loopEmit_serialize
    (render : List Node → Obj → List String → Except RenderError String)
    (tag : String) (attrs : List (String × String)) (children : List Node)
    (data : Obj) (stack : List String) :
    ∀ (items : List Value) (index : Nat),
      Except.map serializeList
          (loopEmit render tag (stripLoopAttrs attrs) children data stack
            (aliasOf attrs) items index)
        = loopExpansionSpec render tag attrs children data stack items index := by
  intro items
  induction items with
  | nil => intro index; rfl
  | cons row more ih =>
    intro index
    show Except.map serializeList
        (match render children (("$index", Value.vNum index) :: (aliasOf attrs, row) :: data) stack with
         | .error e => .error e
         | .ok inner =>
           match loopEmit render tag (stripLoopAttrs attrs) children data stack
               (aliasOf attrs) more (index + 1) with
           | .error e => .error e
           | .ok rest => .ok (.element tag (stripLoopAttrs attrs) [.text inner] :: rest)) = _
    rcases hr : render children (("$index", Value.vNum index) :: (aliasOf attrs, row) :: data) stack
      with e | body
    · simp only [loopExpansionSpec, hr]
      rfl
    · have hspec := ih (index + 1)
      rcases hl : loopEmit render tag (stripLoopAttrs attrs) children data stack
          (aliasOf attrs) more (index + 1) with e2 | ns
      · rw [hl] at hspec
        simp only [loopExpansionSpec, hr, ← hspec]
        rfl
      · rw [hl] at hspec
        simp only [loopExpansionSpec, hr, ← hspec, Except.map]
        show Except.ok (serializeNode (.element tag (stripLoopAttrs attrs) [.text body])
            ++ serializeList ns) = _
        have hser : serializeNode (.element tag (stripLoopAttrs attrs) [.text body])
            = openTagText tag (stripLoopAttrs attrs) ++ body ++ closeTagText tag := by
          show openTagText tag (stripLoopAttrs attrs) ++ (body ++ "") ++ closeTagText tag = _
          rw [strApp_empty]
        rw [hser]

/-- C5: for an element carrying `x-for`, a loop source evaluating to an array
expands to exactly the claim's per-index emission (`loopExpansionSpec`): open
tag with loop attributes stripped, body rendered against the scope layered
with `{alias: element_i, $index: i}` (alias defaulting to `item`), close tag,
concatenated with no separator; a loop source evaluating to any non-array
value removes the entire element (empty contribution) and raises no error. -/
theorem c5_loop_pass :
    ∀ (globals : Obj) (render : List Node → Obj → List String → Except RenderError String)
      (tag expr : String) (attrs : List (String × String)) (children : List Node)
      (data : Obj) (stack : List String),
      attrsLookup attrs "x-for" = some expr →
      ((∀ items : List Value, safeEval globals data expr = .ok (.vArr items) →
          Except.map serializeList
              (applyLoops globals render [.element tag attrs children] data stack)
            = loopExpansionSpec render tag attrs children data stack items 0)
       ∧ (∀ v : Value, safeEval globals data expr = .ok v → (∀ items, v ≠ .vArr items) →
          applyLoops globals render [.element tag attrs children] data stack = .ok [])) := by
  intro globals render tag expr attrs children data stack hfor
  constructor
  · intro items harr
    have hnode : applyLoopsNode globals render (.element tag attrs children) data stack
        = loopEmit render tag (stripLoopAttrs attrs) children data stack
            (aliasOf attrs) items 0 := by
      unfold applyLoopsNode
      simp only [hfor, harr]
    have hser := loopEmit_serialize render tag attrs children data stack items 0
    rcases hl : loopEmit render tag (stripLoopAttrs attrs) children data stack
        (aliasOf attrs) items 0 with e | ns
    · rw [hl] at hser
      simp only [applyLoops, hnode, hl]
      rw [← hser]
    · rw [hl] at hser
      simp only [applyLoops, hnode, hl, List.append_nil]
      exact hser
  · intro v harr hnot
    have hnode : applyLoopsNode globals render (.element tag attrs children) data stack
        = .ok [] := by
      cases v with
      | vArr items => exact absurd rfl (hnot items)
      | vNull => unfold applyLoopsNode; simp only [hfor, harr]
      | vBool b => unfold applyLoopsNode; simp only [hfor, harr]
      | vNum n => unfold applyLoopsNode; simp only [hfor, harr]
      | vStr s => unfold applyLoopsNode; simp only [hfor, harr]
      | vObj fields => unfold applyLoopsNode; simp only [hfor, harr]
    simp only [applyLoops, hnode]
    rfl

/-- C5 (witness): both parts of the theorem at concrete inputs. -/
theorem c5_loop_pass_witness :
    (Except.map serializeList
        (applyLoops [] (fun _ _ _ => .ok "B")
          [.element "ul" [("x-for", "items")] [.text "x"]]
          [("items", .vArr [.vNum 1, .vNum 2])] [])
      = loopExpansionSpec (fun _ _ _ => .ok "B") "ul" [("x-for", "items")]
          [.text "x"] [("items", .vArr [.vNum 1, .vNum 2])] []
          [.vNum 1, .vNum 2] 0)
    ∧ applyLoops [] (fun _ _ _ => .ok "B")
        [.element "ul" [("x-for", "items")] [.text "x"]]
        [("items", .vNull)] [] = .ok [] :=
  ⟨(c5_loop_pass [] (fun _ _ _ => .ok "B") "ul" "items" [("x-for", "items")]
      [.text "x"] [("items", .vArr [.vNum 1, .vNum 2])] [] (by rfl)).1
      [.vNum 1, .vNum 2] (by rfl),
   (c5_loop_pass [] (fun _ _ _ => .ok "B") "ul" "items" [("x-for", "items")]
      [.text "x"] [("items", .vNull)] [] (by rfl)).2
      .vNull (by rfl) (by intro items h; cases h)⟩

/-! ### Claim C3 -/

/-- The template name at level `i` of the include-chain family: a string of
`i` letters `c` (so distinct levels have distinct names and the chain is
non-cyclic). -/
def chainName (i : Nat) : String := String.mk (List.replicate i 'c')

/-- The body of chain template `i` (of a chain whose last level is `n + 1`):
the terminal template is empty, every other level is the single self-closing
include of the next level. -/
def chainContent (n i : Nat) : List Node :=
  if i = n + 1 then [] else [.selfClosing (chainName (i + 1)) []]

/-- The engine holding the non-cyclic include chain
`chainName 1 → chainName 2 → … → chainName (n+1)` (an `n`-include chain). -/
def chainEngine (n : Nat) : TemplateEngine where
  templates := fun s =>
    if (∀ c ∈ s.data, c = 'c') ∧ 1 ≤ s.length ∧ s.length ≤ n + 1 then
      some (chainContent n s.length)
    else none
  caseInsensitiveNames := true
  globals := []

theorem chainEngine_globals (n : Nat) : (chainEngine n).globals = [] := rfl

theorem chainEngine_caseIns (n : Nat) : (chainEngine n).caseInsensitiveNames = true := rfl

theorem chainName_length (i : Nat) : (chainName i).length = i := by
  show (List.replicate i 'c').length = i
  exact List.length_replicate i 'c'

theorem chainName_all (i : Nat) : ∀ c ∈ (chainName i).data, c = 'c' := by
  intro c hc
  exact List.eq_of_mem_replicate hc

theorem normalizeName_chainName (i : Nat) :
    normalizeName true (chainName i) = chainName i := by
  have htrim : trimString (chainName i) = chainName i := by
    unfold trimString
    rw [trimChars_eq_self (chainName i).data
          (fun c hc => by rw [chainName_all i c hc]; rfl),
        string_eta]
  show lowerString (trimString (chainName i)) = chainName i
  rw [htrim]
  show String.mk ((List.replicate i 'c').map Char.toLower) = chainName i
  rw [List.map_replicate]
  rfl

theorem chainEngine_lookup (n i : Nat) (h1 : 1 ≤ i) (h2 : i ≤ n + 1) :
    (chainEngine n).templates (chainName i) = some (chainContent n i) := by
  show (if (∀ c ∈ (chainName i).data, c = 'c')
          ∧ 1 ≤ (chainName i).length ∧ (chainName i).length ≤ n + 1 then
        some (chainContent n (chainName i).length)
      else none) = some (chainContent n i)
  rw [if_pos ⟨chainName_all i,
        by rw [chainName_length]; exact h1,
        by rw [chainName_length]; exact h2⟩,
      chainName_length]

/-- Rendering chain level `i` with `m` includes left succeeds (with the empty
string) whenever the fuel exceeds `m`, i.e. whenever the depth counter will
stay at or below the ceiling all the way down the chain. -/
theorem chain_renders_ok :
    ∀ (m n i fuel : Nat) (data : Obj) (stack : List String),
      1 ≤ i → i + m = n + 1 → m + 1 ≤ fuel → (∀ s ∈ stack, s.length ≤ i) →
      renderContentFuel (chainEngine n) fuel (chainContent n i) data stack = .ok "" := by
  intro m
  induction m with
  | zero =>
    intro n i fuel data stack h1 hsum hfuel hstack
    have hi : i = n + 1 := by omega
    subst hi
    have hc : chainContent n (n + 1) = [] := by simp [chainContent]
    obtain ⟨f, rfl⟩ : ∃ f, fuel = f + 1 := ⟨fuel - 1, by omega⟩
    rw [hc]
    rfl
  | succ m ih =>
    intro n i fuel data stack h1 hsum hfuel hstack
    have hin : i ≠ n + 1 := by omega
    have hc : chainContent n i = [.selfClosing (chainName (i + 1)) []] := by
      simp [chainContent, hin]
    obtain ⟨f, rfl⟩ : ∃ f, fuel = f + 1 := ⟨fuel - 1, by omega⟩
    rw [hc]
    have hnotmem : chainName (i + 1) ∉ stack := by
      intro hm
      have := hstack _ hm
      rw [chainName_length] at this
      omega
    have hrec : renderContentFuel (chainEngine n) f (chainContent n (i + 1)) data
        (stack ++ [chainName (i + 1)]) = .ok "" := by
      refine ih n (i + 1) f data (stack ++ [chainName (i + 1)]) (by omega) (by omega)
        (by omega) ?_
      intro s hs
      rcases List.mem_append.mp hs with hold | hnew
      · have := hstack s hold
        omega
      · rw [List.mem_singleton.mp hnew, chainName_length]
    have hnode : applyIncludesNode (chainEngine n)
        (fun ns d st => renderContentFuel (chainEngine n) f ns d st)
        (.selfClosing (chainName (i + 1)) []) data stack = .ok [.text ""] := by
      unfold applyIncludesNode
      simp only [chainEngine_caseIns, normalizeName_chainName,
        chainEngine_lookup n (i + 1) (by omega) (by omega),
        show parseAttributes (chainEngine n).globals data ([] : List (String × String))
            = Except.ok ([] : Obj) from rfl,
        if_neg hnotmem, List.nil_append, hrec]
    have hinc : applyIncludes (chainEngine n)
        (fun ns d st => renderContentFuel (chainEngine n) f ns d st)
        [.selfClosing (chainName (i + 1)) []] data stack = .ok [.text ""] := by
      simp only [applyIncludes, hnode]
      rfl
    simp only [renderContentFuel,
      show applyLoops (chainEngine n).globals
          (fun ns d st => renderContentFuel (chainEngine n) f ns d st)
          (stripBom [.selfClosing (chainName (i + 1)) []]) data stack
        = Except.ok [Node.selfClosing (chainName (i + 1)) []] from rfl,
      show applyConditionals (chainEngine n).globals
          (fun ns d st => renderContentFuel (chainEngine n) f ns d st)
          [Node.selfClosing (chainName (i + 1)) []] data stack
        = Except.ok [Node.selfClosing (chainName (i + 1)) []] from rfl,
      hinc,
      show interpolate (chainEngine n).globals data (serializeList [Node.text ""])
        = Except.ok "" from rfl]

/-- Rendering chain level `i` with `m` includes left raises the depth error
whenever the fuel is at most `m`, i.e. whenever the depth counter must cross
the ceiling before reaching the terminal template. -/
theorem chain_depth_exceeded :
    ∀ (fuel n m i : Nat) (data : Obj) (stack : List String),
      1 ≤ i → i + m = n + 1 → fuel ≤ m → (∀ s ∈ stack, s.length ≤ i) →
      renderContentFuel (chainEngine n) fuel (chainContent n i) data stack
        = .error .renderDepthExceeded := by
  intro fuel
  induction fuel with
  | zero => intro n m i data stack _ _ _ _; rfl
  | succ f ih =>
    intro n m i data stack h1 hsum hfuel hstack
    have hin : i ≠ n + 1 := by omega
    have hc : chainContent n i = [.selfClosing (chainName (i + 1)) []] := by
      simp [chainContent, hin]
    rw [hc]
    have hnotmem : chainName (i + 1) ∉ stack := by
      intro hm
      have := hstack _ hm
      rw [chainName_length] at this
      omega
    have hrec : renderContentFuel (chainEngine n) f (chainContent n (i + 1)) data
        (stack ++ [chainName (i + 1)]) = .error .renderDepthExceeded := by
      refine ih n (m - 1) (i + 1) data (stack ++ [chainName (i + 1)]) (by omega) (by omega)
        (by omega) ?_
      intro s hs
      rcases List.mem_append.mp hs with hold | hnew
      · have := hstack s hold
        omega
      · rw [List.mem_singleton.mp hnew, chainName_length]
    have hnode : applyIncludesNode (chainEngine n)
        (fun ns d st => renderContentFuel (chainEngine n) f ns d st)
        (.selfClosing (chainName (i + 1)) []) data stack
        = .error .renderDepthExceeded := by
      unfold applyIncludesNode
      simp only [chainEngine_caseIns, normalizeName_chainName,
        chainEngine_lookup n (i + 1) (by omega) (by omega),
        show parseAttributes (chainEngine n).globals data ([] : List (String × String))
            = Except.ok ([] : Obj) from rfl,
        if_neg hnotmem, List.nil_append, hrec]
    have hinc : applyIncludes (chainEngine n)
        (fun ns d st => renderContentFuel (chainEngine n) f ns d st)
        [.selfClosing (chainName (i + 1)) []] data stack
        = .error .renderDepthExceeded := by
      simp only [applyIncludes, hnode]
    simp only [renderContentFuel,
      show applyLoops (chainEngine n).globals
          (fun ns d st => renderContentFuel (chainEngine n) f ns d st)
          (stripBom [.selfClosing (chainName (i + 1)) []]) data stack
        = Except.ok [Node.selfClosing (chainName (i + 1)) []] from rfl,
      show applyConditionals (chainEngine n).globals
          (fun ns d st => renderContentFuel (chainEngine n) f ns d st)
          [Node.selfClosing (chainName (i + 1)) []] data stack
        = Except.ok [Node.selfClosing (chainName (i + 1)) []] from rfl,
      hinc]

/-- C3: the depth counter only ever grows along recursive re-renders (each
re-render runs at `depth + 1`, modelled by the strictly smaller fuel
`51 - depth`), any render entered at a depth above the default ceiling 50
raises `RenderDepthExceeded` immediately, a non-cyclic include chain of `n`
includes with `n ≤ 50` renders to a string, and one with `n > 50` raises
`RenderDepthExceeded` instead of looping or returning. -/
theorem c3_depth_limit :
    (∀ (eng : TemplateEngine) (nodes : List Node) (data : Obj) (stack : List String)
        (depth : Nat), 50 < depth →
        renderContent eng nodes data stack depth = .error .renderDepthExceeded)
    ∧ (∀ n : Nat, n ≤ 50 →
        render (chainEngine n) (chainName 1) (.vObj []) = .ok "")
    ∧ (∀ n : Nat, 51 ≤ n →
        render (chainEngine n) (chainName 1) (.vObj []) = .error .renderDepthExceeded) := by
  refine ⟨?_, ?_, ?_⟩
  · intro eng nodes data stack depth hdepth
    unfold renderContent
    rw [show 51 - depth = 0 by omega]
    rfl
  · intro n hn
    unfold render
    simp only [chainEngine_caseIns, normalizeName_chainName,
      chainEngine_lookup n 1 (by omega) (by omega)]
    exact chain_renders_ok n n 1 51 (createRootDataProxy (.vObj [])) [] (by omega) (by omega)
      (by omega) (by intro s hs; cases hs)
  · intro n hn
    unfold render
    simp only [chainEngine_caseIns, normalizeName_chainName,
      chainEngine_lookup n 1 (by omega) (by omega)]
    exact chain_depth_exceeded 51 n n 1 (createRootDataProxy (.vObj [])) [] (by omega)
      (by omega) (by omega) (by intro s hs; cases hs)

/-- C3 (witness): all three parts at concrete inputs — immediate failure at
depth 51, success of the 50-include chain, failure of the 51-include chain. -/
theorem c3_depth_limit_witness :
    renderContent (chainEngine 0) [] [] [] 51 = .error .renderDepthExceeded
    ∧ render (chainEngine 50) (chainName 1) (.vObj []) = .ok ""
    ∧ render (chainEngine 51) (chainName 1) (.vObj []) = .error .renderDepthExceeded :=
  ⟨c3_depth_limit.1 (chainEngine 0) [] [] [] 51 (by omega),
   c3_depth_limit.2.1 50 (by omega),
   c3_depth_limit.2.2 51 (by omega)⟩

end Templating
